import Mathlib

/-!
Verification development for the rodbus C bindings: the server write
handlers, authorization handlers and database-update callbacks of
`ffi/bindings/c/server_example.c` and `ffi/bindings/c/src/server.c`,
together with the server database/dispatcher semantics described by the
specification (the Rust core itself is not part of this snapshot, so
those parts are modelled from the spec).
-/

namespace Rodbus

/-- Modelled from the spec: a Database holds "four independent sparse
mappings (index → value)"; each mapping is an association list from a
16-bit index to a value. The rodbus database implementation is not in
this snapshot. -/
abbrev RegMap (α : Type) := List (Nat × α)

/-- Modelled from the spec: look up the value of an index in a sparse
mapping; `none` for an index that was never provisioned. -/
def lookupReg {α : Type} : RegMap α → Nat → Option α
  | [], _ => none
  | (j, w) :: rest, i => if j = i then some w else lookupReg rest i

/-- Modelled from the spec: provisioning — "entries are explicitly
provisioned (added) before they can be addressed" (`database_add_coil`
and friends, absent from this snapshot). -/
def addReg {α : Type} (m : RegMap α) (i : Nat) (v : α) : RegMap α :=
  m ++ [(i, v)]

/-- Modelled from the spec: updating — `database_update_coil` and
friends return `true` and store the value exactly when the index is
already provisioned; "absent indices are never implicitly created".
`none` models the failing (`false`-returning) case, which leaves the
mapping unchanged. -/
def updateReg {α : Type} : RegMap α → Nat → α → Option (RegMap α)
  | [], _, _ => none
  | (j, w) :: rest, i, v =>
    if j = i then some ((j, v) :: rest)
    else (updateReg rest i v).map (fun m => (j, w) :: m)

/-- Modelled from the spec: the per-unit database with its four
independent sparse mappings. -/
structure Database where
  coils : RegMap Bool
  discrete_inputs : RegMap Bool
  holding_registers : RegMap Nat
  input_registers : RegMap Nat
  deriving DecidableEq

/-- Modelled from the spec: a freshly created database has no entries. -/
def Database.empty : Database := ⟨[], [], [], []⟩

/-- Modelled from the spec: `database_add_coil`. -/
def Database.add_coil (db : Database) (i : Nat) (v : Bool) : Database :=
  { db with coils := addReg db.coils i v }

/-- Modelled from the spec: `database_add_discrete_input`. -/
def Database.add_discrete_input (db : Database) (i : Nat) (v : Bool) : Database :=
  { db with discrete_inputs := addReg db.discrete_inputs i v }

/-- Modelled from the spec: `database_add_holding_register`. -/
def Database.add_holding_register (db : Database) (i : Nat) (v : Nat) : Database :=
  { db with holding_registers := addReg db.holding_registers i v }

/-- Modelled from the spec: `database_add_input_register`. -/
def Database.add_input_register (db : Database) (i : Nat) (v : Nat) : Database :=
  { db with input_registers := addReg db.input_registers i v }

/-- Modelled from the spec: `database_update_coil`; `none` is the
C function returning `false` with the database untouched. -/
def Database.update_coil (db : Database) (i : Nat) (v : Bool) : Option Database :=
  (updateReg db.coils i v).map (fun m => { db with coils := m })

/-- Modelled from the spec: `database_update_discrete_input`. -/
def Database.update_discrete_input (db : Database) (i : Nat) (v : Bool) : Option Database :=
  (updateReg db.discrete_inputs i v).map (fun m => { db with discrete_inputs := m })

/-- Modelled from the spec: `database_update_holding_register`. -/
def Database.update_holding_register (db : Database) (i : Nat) (v : Nat) : Option Database :=
  (updateReg db.holding_registers i v).map (fun m => { db with holding_registers := m })

/-- Modelled from the spec: `database_update_input_register`. -/
def Database.update_input_register (db : Database) (i : Nat) (v : Nat) : Option Database :=
  (updateReg db.input_registers i v).map (fun m => { db with input_registers := m })

/-- Modelled from the spec: "ModbusExceptionCode includes at least
IllegalDataAddress"; the authorization gate replies with "an
authorization-failure exception code". -/
inductive ModbusException where
  | illegalDataAddress
  | authorizationFailure
  deriving DecidableEq

/-- The write-result type of the bindings: `write_result_success()` or
`write_result_exception(code)`. -/
inductive WriteResult where
  | success
  | exception (code : ModbusException)
  deriving DecidableEq

/-- `rodbus_write_result_success`. -/
def write_result_success : WriteResult := WriteResult.success

/-- `rodbus_write_result_exception`. -/
def write_result_exception (code : ModbusException) : WriteResult :=
  WriteResult.exception code

end Rodbus

namespace ServerExample

open Rodbus

/-- `on_write_single_coil` from `ffi/bindings/c/server_example.c`: update
the coil; success when the update succeeds, IllegalDataAddress when not.
The C function mutates the database through a pointer, so the embedding
returns the result paired with the resulting database. -/
def on_write_single_coil (index : Nat) (value : Bool) (db : Database) :
    WriteResult × Database :=
  match db.update_coil index value with
  | some db' => (write_result_success, db')
  | none => (write_result_exception ModbusException.illegalDataAddress, db)

/-- `on_write_single_register` from `ffi/bindings/c/server_example.c`. -/
def on_write_single_register (index : Nat) (value : Nat) (db : Database) :
    WriteResult × Database :=
  match db.update_holding_register index value with
  | some db' => (write_result_success, db')
  | none => (write_result_exception ModbusException.illegalDataAddress, db)

/-- The loop of `on_write_multiple_coils` from
`ffi/bindings/c/server_example.c`: the bit iterator is embedded as the
list of `(index, value)` pairs it yields; `result` is the accumulator
variable, overwritten with the IllegalDataAddress exception on each
failed update while the loop continues. -/
def write_multiple_coils_loop :
    List (Nat × Bool) → Database → WriteResult → WriteResult × Database
  | [], db, result => (result, db)
  | (i, v) :: rest, db, result =>
    match db.update_coil i v with
    | some db' => write_multiple_coils_loop rest db' result
    | none =>
      write_multiple_coils_loop rest db
        (write_result_exception ModbusException.illegalDataAddress)

/-- `on_write_multiple_coils` from `ffi/bindings/c/server_example.c`
(the `start` argument is unused by the C code). -/
def on_write_multiple_coils (start : Nat) (bits : List (Nat × Bool))
    (db : Database) : WriteResult × Database :=
  write_multiple_coils_loop bits db write_result_success

/-- The loop of `on_write_multiple_registers` from
`ffi/bindings/c/server_example.c`. -/
def write_multiple_registers_loop :
    List (Nat × Nat) → Database → WriteResult → WriteResult × Database
  | [], db, result => (result, db)
  | (i, v) :: rest, db, result =>
    match db.update_holding_register i v with
    | some db' => write_multiple_registers_loop rest db' result
    | none =>
      write_multiple_registers_loop rest db
        (write_result_exception ModbusException.illegalDataAddress)

/-- `on_write_multiple_registers` from
`ffi/bindings/c/server_example.c`. -/
def on_write_multiple_registers (start : Nat) (regs : List (Nat × Nat))
    (db : Database) : WriteResult × Database :=
  write_multiple_registers_loop regs db write_result_success

/-- The loop body of `configure_db` from
`ffi/bindings/c/server_example.c`: one iteration adds a coil, a discrete
input, a holding register and an input register at index `i`. -/
def configure_db_step (i : Nat) (db : Database) : Database :=
  (((db.add_coil i false).add_discrete_input i false).add_holding_register
      i 0).add_input_register i 0

/-- The loop of `configure_db`, iterating `i = 0, 1, ..., n-1` in
ascending order. -/
def configure_db_loop : Nat → Database → Database
  | 0, db => db
  | n + 1, db => configure_db_step n (configure_db_loop n db)

/-- `configure_db` from `ffi/bindings/c/server_example.c`: provisions
indices 0..9 of all four maps. -/
def configure_db (db : Database) : Database := configure_db_loop 10 db

end ServerExample

namespace ServerC

open Rodbus

/-- `on_write_single_coil` from `ffi/bindings/c/src/server.c` (this
older example takes the value before the address). -/
def on_write_single_coil (value : Bool) (address : Nat) (db : Database) :
    WriteResult × Database :=
  match db.update_coil address value with
  | some db' => (write_result_success, db')
  | none => (write_result_exception ModbusException.illegalDataAddress, db)

/-- `on_write_single_register` from `ffi/bindings/c/src/server.c`. -/
def on_write_single_register (value : Nat) (address : Nat) (db : Database) :
    WriteResult × Database :=
  match db.update_holding_register address value with
  | some db' => (write_result_success, db')
  | none => (write_result_exception ModbusException.illegalDataAddress, db)

/-- `on_write_multiple_coils` from `ffi/bindings/c/src/server.c`: this
variant returns the IllegalDataAddress exception as soon as one update
fails, leaving the rest of the iterator unconsumed. -/
def on_write_multiple_coils (start : Nat) :
    List (Nat × Bool) → Database → WriteResult × Database
  | [], db => (write_result_success, db)
  | (i, v) :: rest, db =>
    match db.update_coil i v with
    | some db' => on_write_multiple_coils start rest db'
    | none => (write_result_exception ModbusException.illegalDataAddress, db)

/-- `on_write_multiple_registers` from `ffi/bindings/c/src/server.c`:
the early-return variant for holding registers. -/
def on_write_multiple_registers (start : Nat) :
    List (Nat × Nat) → Database → WriteResult × Database
  | [], db => (write_result_success, db)
  | (i, v) :: rest, db =>
    match db.update_holding_register i v with
    | some db' => on_write_multiple_registers start rest db'
    | none => (write_result_exception ModbusException.illegalDataAddress, db)

/-- `state_t` from `ffi/bindings/c/src/server.c`. -/
structure state_t where
  register_value : Nat
  bit_value : Bool
  deriving DecidableEq

/-- `configure_db` from `ffi/bindings/c/src/server.c`: provisions
indices 0..9 of all four maps (the registers are added with the C
literal `false`, i.e. value 0). -/
def configure_db_step (i : Nat) (db : Database) : Database :=
  (((db.add_coil i false).add_discrete_input i false).add_holding_register
      i 0).add_input_register i 0

/-- The loop of `configure_db` from `ffi/bindings/c/src/server.c`. -/
def configure_db_loop : Nat → Database → Database
  | 0, db => db
  | n + 1, db => configure_db_step n (configure_db_loop n db)

/-- `configure_db` from `ffi/bindings/c/src/server.c`. -/
def configure_db (db : Database) : Database := configure_db_loop 10 db

/-- One iteration of the `update_db` loop from
`ffi/bindings/c/src/server.c`: sets discrete input `i` and then input
register `i`, ignoring the boolean result of each update (a failing
update leaves the database unchanged). -/
def update_db_step (bit : Bool) (reg : Nat) (i : Nat) (db : Database) :
    Database :=
  let db1 := (db.update_discrete_input i bit).getD db
  (db1.update_input_register i reg).getD db1

/-- The `update_db` loop, iterating `i = 0, 1, ..., n-1` in ascending
order. -/
def update_db_loop (bit : Bool) (reg : Nat) : Nat → Database → Database
  | 0, db => db
  | n + 1, db => update_db_step bit reg n (update_db_loop bit reg n db)

/-- `update_db` from `ffi/bindings/c/src/server.c`: toggles the state's
bit value, increments the 16-bit register value (wrapping at 2^16), and
writes the new values to discrete inputs and input registers 0..9. -/
def update_db (st : state_t) (db : Database) : state_t × Database :=
  (⟨(st.register_value + 1) % 65536, !st.bit_value⟩,
    update_db_loop (!st.bit_value) ((st.register_value + 1) % 65536) 10 db)

end ServerC

namespace Rodbus

/-- `rodbus_address_range_t`: a start offset and a count. -/
structure AddressRange where
  start : Nat
  count : Nat
  deriving DecidableEq

/-- `rodbus_authorization_result_t`: Authorized or NotAuthorized. -/
inductive Authorization where
  | authorized
  | notAuthorized
  deriving DecidableEq

/-- `rodbus_authorization_handler_t`: one callback per function code, as
initialized by `rodbus_authorization_handler_init` (unit id, range or
index, and role string). -/
structure AuthorizationHandler where
  read_coils : Nat → AddressRange → String → Authorization
  read_discrete_inputs : Nat → AddressRange → String → Authorization
  read_holding_registers : Nat → AddressRange → String → Authorization
  read_input_registers : Nat → AddressRange → String → Authorization
  write_single_coil : Nat → Nat → String → Authorization
  write_single_register : Nat → Nat → String → Authorization
  write_multiple_coils : Nat → AddressRange → String → Authorization
  write_multiple_registers : Nat → AddressRange → String → Authorization

/-- `rodbus_write_handler_t`: one callback per write function code, as
initialized by `rodbus_write_handler_init`. Multi-write callbacks
receive the start address and the `(index, value)` pairs the request's
iterator yields. -/
structure WriteHandler where
  write_single_coil : Nat → Bool → Database → WriteResult × Database
  write_single_register : Nat → Nat → Database → WriteResult × Database
  write_multiple_coils : Nat → List (Nat × Bool) → Database → WriteResult × Database
  write_multiple_registers : Nat → List (Nat × Nat) → Database → WriteResult × Database

/-- Modelled from the spec: the decoded requests of the bit and register
read/write families in scope (function codes 0x01-0x06, 0x0F, 0x10). -/
inductive Request where
  | readCoils (range : AddressRange)
  | readDiscreteInputs (range : AddressRange)
  | readHoldingRegisters (range : AddressRange)
  | readInputRegisters (range : AddressRange)
  | writeSingleCoil (index : Nat) (value : Bool)
  | writeSingleRegister (index : Nat) (value : Nat)
  | writeMultipleCoils (start : Nat) (values : List Bool)
  | writeMultipleRegisters (start : Nat) (values : List Nat)
  deriving DecidableEq

/-- Modelled from the spec: the server's reply to a request — the
requested values, a write acknowledgement, or an exception response. -/
inductive Response where
  | readBits (values : List (Nat × Bool))
  | readRegisters (values : List (Nat × Nat))
  | writeOk
  | exception (code : ModbusException)
  deriving DecidableEq

/-- Whether a request belongs to the write family. -/
def Request.isWrite : Request → Bool
  | .writeSingleCoil _ _ => true
  | .writeSingleRegister _ _ => true
  | .writeMultipleCoils _ _ => true
  | .writeMultipleRegisters _ _ => true
  | _ => false

/-- Pair each value of a multi-write request with its index, starting at
the request's start address (what the `bit_iterator_t` /
`register_iterator_t` of the bindings yields). -/
def indexedFrom {α : Type} (start : Nat) : List α → List (Nat × α)
  | [] => []
  | v :: rest => (start, v) :: indexedFrom (start + 1) rest

/-- Modelled from the spec: "Read operations return the requested
range's current values; an out-of-range read (addressing an index never
provisioned) yields IllegalDataAddress" — `none` models that exception,
raised as soon as any index of the range is absent. -/
def readRange {α : Type} (m : RegMap α) : Nat → Nat → Option (List (Nat × α))
  | _, 0 => some []
  | start, count + 1 =>
    match lookupReg m start with
    | none => none
    | some v => (readRange m (start + 1) count).map (fun rest => (start, v) :: rest)

/-- Turn a write handler's result into the wire response. -/
def writeResponse : WriteResult → Response
  | .success => Response.writeOk
  | .exception code => Response.exception code

/-- Modelled from the spec: the server dispatcher for one unit id
(§4.5). The authorization handler is consulted first; NotAuthorized
yields an exception response with the authorization-failure code
"without touching the database". Authorized reads return the range's
values or IllegalDataAddress; authorized writes invoke the registered
write handler, whose result is mapped onto the wire response. -/
def dispatch (auth : AuthorizationHandler) (wh : WriteHandler)
    (unitId : Nat) (role : String) (db : Database) :
    Request → Response × Database
  | .readCoils r =>
    match auth.read_coils unitId r role with
    | .notAuthorized => (Response.exception ModbusException.authorizationFailure, db)
    | .authorized =>
      match readRange db.coils r.start r.count with
      | some vals => (Response.readBits vals, db)
      | none => (Response.exception ModbusException.illegalDataAddress, db)
  | .readDiscreteInputs r =>
    match auth.read_discrete_inputs unitId r role with
    | .notAuthorized => (Response.exception ModbusException.authorizationFailure, db)
    | .authorized =>
      match readRange db.discrete_inputs r.start r.count with
      | some vals => (Response.readBits vals, db)
      | none => (Response.exception ModbusException.illegalDataAddress, db)
  | .readHoldingRegisters r =>
    match auth.read_holding_registers unitId r role with
    | .notAuthorized => (Response.exception ModbusException.authorizationFailure, db)
    | .authorized =>
      match readRange db.holding_registers r.start r.count with
      | some vals => (Response.readRegisters vals, db)
      | none => (Response.exception ModbusException.illegalDataAddress, db)
  | .readInputRegisters r =>
    match auth.read_input_registers unitId r role with
    | .notAuthorized => (Response.exception ModbusException.authorizationFailure, db)
    | .authorized =>
      match readRange db.input_registers r.start r.count with
      | some vals => (Response.readRegisters vals, db)
      | none => (Response.exception ModbusException.illegalDataAddress, db)
  | .writeSingleCoil i v =>
    match auth.write_single_coil unitId i role with
    | .notAuthorized => (Response.exception ModbusException.authorizationFailure, db)
    | .authorized =>
      let (res, db') := wh.write_single_coil i v db
      (writeResponse res, db')
  | .writeSingleRegister i v =>
    match auth.write_single_register unitId i role with
    | .notAuthorized => (Response.exception ModbusException.authorizationFailure, db)
    | .authorized =>
      let (res, db') := wh.write_single_register i v db
      (writeResponse res, db')
  | .writeMultipleCoils start values =>
    match auth.write_multiple_coils unitId ⟨start, values.length⟩ role with
    | .notAuthorized => (Response.exception ModbusException.authorizationFailure, db)
    | .authorized =>
      let (res, db') := wh.write_multiple_coils start (indexedFrom start values) db
      (writeResponse res, db')
  | .writeMultipleRegisters start values =>
    match auth.write_multiple_registers unitId ⟨start, values.length⟩ role with
    | .notAuthorized => (Response.exception ModbusException.authorizationFailure, db)
    | .authorized =>
      let (res, db') := wh.write_multiple_registers start (indexedFrom start values) db
      (writeResponse res, db')

end Rodbus

namespace ServerExample

open Rodbus

/-- `auth_read` from `ffi/bindings/c/server_example.c`: authorizes every
read. -/
def auth_read (_unit_id : Nat) (_range : AddressRange) (_role : String) :
    Authorization :=
  Authorization.authorized

/-- `auth_single_write` from `ffi/bindings/c/server_example.c`: denies
every single write. -/
def auth_single_write (_unit_id : Nat) (_idx : Nat) (_role : String) :
    Authorization :=
  Authorization.notAuthorized

/-- `auth_multiple_writes` from `ffi/bindings/c/server_example.c`:
denies every multi write. -/
def auth_multiple_writes (_unit_id : Nat) (_range : AddressRange)
    (_role : String) : Authorization :=
  Authorization.notAuthorized

/-- `get_auth_handler` from `ffi/bindings/c/server_example.c`: the
example authorization handler, allowing all reads and denying all
writes. -/
def get_auth_handler : AuthorizationHandler :=
  ⟨auth_read, auth_read, auth_read, auth_read,
    auth_single_write, auth_single_write, auth_multiple_writes,
    auth_multiple_writes⟩

/-- The write handler registered by `build_device_map` in
`ffi/bindings/c/server_example.c` via `rodbus_write_handler_init`. -/
def write_handler : WriteHandler :=
  ⟨on_write_single_coil, on_write_single_register, on_write_multiple_coils,
    on_write_multiple_registers⟩

/-- The database produced by running `configure_db` on a fresh database,
as the server does when the endpoint of unit id 1 is registered. -/
def example_db : Database := configure_db Database.empty

end ServerExample

namespace Rodbus

theorem updateReg_isSome {α : Type} (m : RegMap α) (i : Nat) (v : α) :
    (updateReg m i v).isSome = (lookupReg m i).isSome := by
  induction m with
  | nil => rfl
  | cons p rest ih =>
    obtain ⟨j, w⟩ := p
    by_cases hji : j = i
    · simp [updateReg, lookupReg, hji]
    · simp [updateReg, lookupReg, hji, ih]

theorem updateReg_eq_none {α : Type} {m : RegMap α} {i : Nat} (v : α)
    (h : lookupReg m i = none) : updateReg m i v = none := by
  have hs := updateReg_isSome m i v
  rw [h] at hs
  cases hu : updateReg m i v with
  | none => rfl
  | some m' => rw [hu] at hs; simp at hs

theorem lookupReg_updateReg_self {α : Type} {m m' : RegMap α} {i : Nat}
    {v : α} (h : updateReg m i v = some m') : lookupReg m' i = some v := by
  induction m generalizing m' with
  | nil => simp [updateReg] at h
  | cons p rest ih =>
    obtain ⟨j, w⟩ := p
    by_cases hji : j = i
    · subst hji
      simp [updateReg] at h
      subst h
      simp [lookupReg]
    · simp [updateReg, hji] at h
      obtain ⟨m1, hm1, rfl⟩ := h
      simp [lookupReg, hji, ih hm1]

theorem lookupReg_updateReg_ne {α : Type} {m m' : RegMap α} {i j : Nat}
    {v : α} (h : updateReg m i v = some m') (hji : j ≠ i) :
    lookupReg m' j = lookupReg m j := by
  induction m generalizing m' with
  | nil => simp [updateReg] at h
  | cons p rest ih =>
    obtain ⟨k, w⟩ := p
    by_cases hki : k = i
    · subst hki
      simp [updateReg] at h
      subst h
      have hkj : ¬ k = j := fun hh => hji hh.symm
      simp [lookupReg, hkj]
    · simp [updateReg, hki] at h
      obtain ⟨m1, hm1, rfl⟩ := h
      by_cases hkj : k = j
      · simp [lookupReg, hkj]
      · simp [lookupReg, hkj, ih hm1]

theorem dom_updateReg {α : Type} {m m' : RegMap α} {i : Nat} {v : α}
    (h : updateReg m i v = some m') (j : Nat) :
    (lookupReg m' j).isSome = (lookupReg m j).isSome := by
  by_cases hji : j = i
  · subst hji
    rw [lookupReg_updateReg_self h]
    have := updateReg_isSome m j v
    rw [h] at this
    exact this.symm ▸ rfl
  · rw [lookupReg_updateReg_ne h hji]

end Rodbus

namespace Rodbus

theorem update_coil_isSome (db : Database) (i : Nat) (v : Bool) :
    (db.update_coil i v).isSome = (lookupReg db.coils i).isSome := by
  rw [Database.update_coil, ← updateReg_isSome db.coils i v]
  cases updateReg db.coils i v <;> rfl

theorem update_holding_register_isSome (db : Database) (i : Nat) (v : Nat) :
    (db.update_holding_register i v).isSome =
      (lookupReg db.holding_registers i).isSome := by
  rw [Database.update_holding_register, ← updateReg_isSome db.holding_registers i v]
  cases updateReg db.holding_registers i v <;> rfl

theorem update_coil_eq_some {db db' : Database} {i : Nat} {v : Bool}
    (h : db.update_coil i v = some db') :
    ∃ m, updateReg db.coils i v = some m ∧ db' = { db with coils := m } := by
  rw [Database.update_coil] at h
  cases hu : updateReg db.coils i v with
  | none => rw [hu] at h; simp at h
  | some m => rw [hu] at h; simp at h; exact ⟨m, rfl, h.symm⟩

theorem update_holding_register_eq_some {db db' : Database} {i v : Nat}
    (h : db.update_holding_register i v = some db') :
    ∃ m, updateReg db.holding_registers i v = some m ∧
      db' = { db with holding_registers := m } := by
  rw [Database.update_holding_register] at h
  cases hu : updateReg db.holding_registers i v with
  | none => rw [hu] at h; simp at h
  | some m => rw [hu] at h; simp at h; exact ⟨m, rfl, h.symm⟩

theorem coil_dom_update_coil {db db' : Database} {i : Nat} {v : Bool}
    (h : db.update_coil i v = some db') (j : Nat) :
    (lookupReg db'.coils j).isSome = (lookupReg db.coils j).isSome := by
  obtain ⟨m, hm, rfl⟩ := update_coil_eq_some h
  exact dom_updateReg hm j

theorem hr_dom_update_holding_register {db db' : Database} {i v : Nat}
    (h : db.update_holding_register i v = some db') (j : Nat) :
    (lookupReg db'.holding_registers j).isSome =
      (lookupReg db.holding_registers j).isSome := by
  obtain ⟨m, hm, rfl⟩ := update_holding_register_eq_some h
  exact dom_updateReg hm j

theorem coil_frame_update_coil {db db' : Database} {i j : Nat} {v : Bool}
    (h : db.update_coil i v = some db') (hji : j ≠ i) :
    lookupReg db'.coils j = lookupReg db.coils j := by
  obtain ⟨m, hm, rfl⟩ := update_coil_eq_some h
  exact lookupReg_updateReg_ne hm hji

theorem hr_frame_update_holding_register {db db' : Database} {i j v : Nat}
    (h : db.update_holding_register i v = some db') (hji : j ≠ i) :
    lookupReg db'.holding_registers j = lookupReg db.holding_registers j := by
  obtain ⟨m, hm, rfl⟩ := update_holding_register_eq_some h
  exact lookupReg_updateReg_ne hm hji

theorem update_coil_eq_none {db : Database} {i : Nat} (v : Bool)
    (h : lookupReg db.coils i = none) : db.update_coil i v = none := by
  rw [Database.update_coil, updateReg_eq_none v h]
  rfl

theorem update_holding_register_eq_none {db : Database} {i : Nat} (v : Nat)
    (h : lookupReg db.holding_registers i = none) :
    db.update_holding_register i v = none := by
  rw [Database.update_holding_register, updateReg_eq_none v h]
  rfl

/-- All indices of a bit sequence are provisioned as coils: the
condition under which every update of a multi-coil write succeeds. -/
def coilsOk (db : Database) (bits : List (Nat × Bool)) : Bool :=
  bits.all (fun p => (lookupReg db.coils p.1).isSome)

/-- All indices of a register sequence are provisioned as holding
registers. -/
def regsOk (db : Database) (regs : List (Nat × Nat)) : Bool :=
  regs.all (fun p => (lookupReg db.holding_registers p.1).isSome)

theorem coilsOk_congr {db db' : Database}
    (h : ∀ j, (lookupReg db'.coils j).isSome = (lookupReg db.coils j).isSome)
    (bits : List (Nat × Bool)) : coilsOk db' bits = coilsOk db bits := by
  induction bits with
  | nil => rfl
  | cons p rest ih => simp [coilsOk, List.all_cons] at ih ⊢; rw [h p.1, ih]

theorem regsOk_congr {db db' : Database}
    (h : ∀ j, (lookupReg db'.holding_registers j).isSome =
      (lookupReg db.holding_registers j).isSome)
    (regs : List (Nat × Nat)) : regsOk db' regs = regsOk db regs := by
  induction regs with
  | nil => rfl
  | cons p rest ih => simp [regsOk, List.all_cons] at ih ⊢; rw [h p.1, ih]

end Rodbus

namespace Rodbus

theorem write_multiple_coils_loop_fst (bits : List (Nat × Bool)) :
    ∀ (db : Database) (res : WriteResult),
      (ServerExample.write_multiple_coils_loop bits db res).1 =
        if coilsOk db bits then res
        else WriteResult.exception ModbusException.illegalDataAddress := by
  induction bits with
  | nil =>
    intro db res
    simp [ServerExample.write_multiple_coils_loop, coilsOk]
  | cons p rest ih =>
    intro db res
    obtain ⟨i, v⟩ := p
    cases hu : db.update_coil i v with
    | some db' =>
      have hsome : (lookupReg db.coils i).isSome = true := by
        rw [← update_coil_isSome db i v, hu]; rfl
      have hok : coilsOk db' rest = coilsOk db rest :=
        coilsOk_congr (coil_dom_update_coil hu) rest
      have hcons : coilsOk db ((i, v) :: rest) = coilsOk db rest := by
        simp [coilsOk, List.all_cons, hsome]
      simp only [ServerExample.write_multiple_coils_loop, hu]
      rw [ih db' res, hok, hcons]
    | none =>
      have hnone : (lookupReg db.coils i).isSome = false := by
        rw [← update_coil_isSome db i v, hu]; rfl
      have hcons : coilsOk db ((i, v) :: rest) = false := by
        simp [coilsOk, List.all_cons, hnone]
      simp only [ServerExample.write_multiple_coils_loop, hu]
      rw [ih db _, hcons]
      simp [write_result_exception]

theorem write_multiple_registers_loop_fst (regs : List (Nat × Nat)) :
    ∀ (db : Database) (res : WriteResult),
      (ServerExample.write_multiple_registers_loop regs db res).1 =
        if regsOk db regs then res
        else WriteResult.exception ModbusException.illegalDataAddress := by
  induction regs with
  | nil =>
    intro db res
    simp [ServerExample.write_multiple_registers_loop, regsOk]
  | cons p rest ih =>
    intro db res
    obtain ⟨i, v⟩ := p
    cases hu : db.update_holding_register i v with
    | some db' =>
      have hsome : (lookupReg db.holding_registers i).isSome = true := by
        rw [← update_holding_register_isSome db i v, hu]; rfl
      have hok : regsOk db' rest = regsOk db rest :=
        regsOk_congr (hr_dom_update_holding_register hu) rest
      have hcons : regsOk db ((i, v) :: rest) = regsOk db rest := by
        simp [regsOk, List.all_cons, hsome]
      simp only [ServerExample.write_multiple_registers_loop, hu]
      rw [ih db' res, hok, hcons]
    | none =>
      have hnone : (lookupReg db.holding_registers i).isSome = false := by
        rw [← update_holding_register_isSome db i v, hu]; rfl
      have hcons : regsOk db ((i, v) :: rest) = false := by
        simp [regsOk, List.all_cons, hnone]
      simp only [ServerExample.write_multiple_registers_loop, hu]
      rw [ih db _, hcons]
      simp [write_result_exception]

theorem serverC_multiple_coils_fst (start : Nat) (bits : List (Nat × Bool)) :
    ∀ db : Database,
      (ServerC.on_write_multiple_coils start bits db).1 =
        if coilsOk db bits then WriteResult.success
        else WriteResult.exception ModbusException.illegalDataAddress := by
  induction bits with
  | nil =>
    intro db
    simp [ServerC.on_write_multiple_coils, coilsOk, write_result_success]
  | cons p rest ih =>
    intro db
    obtain ⟨i, v⟩ := p
    cases hu : db.update_coil i v with
    | some db' =>
      have hsome : (lookupReg db.coils i).isSome = true := by
        rw [← update_coil_isSome db i v, hu]; rfl
      have hok : coilsOk db' rest = coilsOk db rest :=
        coilsOk_congr (coil_dom_update_coil hu) rest
      have hcons : coilsOk db ((i, v) :: rest) = coilsOk db rest := by
        simp [coilsOk, List.all_cons, hsome]
      simp only [ServerC.on_write_multiple_coils, hu]
      rw [ih db', hok, hcons]
    | none =>
      have hnone : (lookupReg db.coils i).isSome = false := by
        rw [← update_coil_isSome db i v, hu]; rfl
      have hcons : coilsOk db ((i, v) :: rest) = false := by
        simp [coilsOk, List.all_cons, hnone]
      simp only [ServerC.on_write_multiple_coils, hu]
      rw [hcons]
      simp [write_result_exception]

theorem serverC_multiple_registers_fst (start : Nat) (regs : List (Nat × Nat)) :
    ∀ db : Database,
      (ServerC.on_write_multiple_registers start regs db).1 =
        if regsOk db regs then WriteResult.success
        else WriteResult.exception ModbusException.illegalDataAddress := by
  induction regs with
  | nil =>
    intro db
    simp [ServerC.on_write_multiple_registers, regsOk, write_result_success]
  | cons p rest ih =>
    intro db
    obtain ⟨i, v⟩ := p
    cases hu : db.update_holding_register i v with
    | some db' =>
      have hsome : (lookupReg db.holding_registers i).isSome = true := by
        rw [← update_holding_register_isSome db i v, hu]; rfl
      have hok : regsOk db' rest = regsOk db rest :=
        regsOk_congr (hr_dom_update_holding_register hu) rest
      have hcons : regsOk db ((i, v) :: rest) = regsOk db rest := by
        simp [regsOk, List.all_cons, hsome]
      simp only [ServerC.on_write_multiple_registers, hu]
      rw [ih db', hok, hcons]
    | none =>
      have hnone : (lookupReg db.holding_registers i).isSome = false := by
        rw [← update_holding_register_isSome db i v, hu]; rfl
      have hcons : regsOk db ((i, v) :: rest) = false := by
        simp [regsOk, List.all_cons, hnone]
      simp only [ServerC.on_write_multiple_registers, hu]
      rw [hcons]
      simp [write_result_exception]

end Rodbus

namespace Rodbus

theorem coilsOk_eq_all_update (db : Database) (bits : List (Nat × Bool)) :
    coilsOk db bits = bits.all (fun p => (db.update_coil p.1 p.2).isSome) := by
  simp only [coilsOk, update_coil_isSome]

theorem regsOk_eq_all_update (db : Database) (regs : List (Nat × Nat)) :
    regsOk db regs =
      regs.all (fun p => (db.update_holding_register p.1 p.2).isSome) := by
  simp only [regsOk, update_holding_register_isSome]

/-- C1: for every multi-coil or multi-register write handled by the
example server's WriteHandler, the result is the IllegalDataAddress
exception when updating some index fails and success when every index
updates successfully; the concrete conjuncts show a request on the
example database whose result is the exception even though its first
index was already applied (coil 0 went from false to true). -/
theorem c1_multi_write_first_exception (start : Nat) (bits : List (Nat × Bool))
    (regs : List (Nat × Nat)) (db : Database) :
    ((ServerExample.on_write_multiple_coils start bits db).1 =
      if bits.all (fun p => (db.update_coil p.1 p.2).isSome) then
        WriteResult.success
      else WriteResult.exception ModbusException.illegalDataAddress) ∧
    ((ServerExample.on_write_multiple_registers start regs db).1 =
      if regs.all (fun p => (db.update_holding_register p.1 p.2).isSome) then
        WriteResult.success
      else WriteResult.exception ModbusException.illegalDataAddress) ∧
    (ServerExample.on_write_multiple_coils 0 [(0, true), (100, true)]
        ServerExample.example_db).1 =
      WriteResult.exception ModbusException.illegalDataAddress ∧
    lookupReg ServerExample.example_db.coils 0 = some false ∧
    lookupReg (ServerExample.on_write_multiple_coils 0 [(0, true), (100, true)]
        ServerExample.example_db).2.coils 0 = some true := by
  refine ⟨?_, ?_, by decide, by decide, by decide⟩
  · unfold ServerExample.on_write_multiple_coils
    rw [write_multiple_coils_loop_fst, coilsOk_eq_all_update]
    rfl
  · unfold ServerExample.on_write_multiple_registers
    rw [write_multiple_registers_loop_fst, regsOk_eq_all_update]
    rfl

/-- C2: the single-write handlers of both C examples return success
exactly when the database update succeeds and the IllegalDataAddress
exception exactly when it fails; the `if` equation shows no other
result is possible. -/
theorem c2_single_write_result (i : Nat) (v : Bool) (r : Nat) (db : Database) :
    ((ServerExample.on_write_single_coil i v db).1 =
      if (db.update_coil i v).isSome then WriteResult.success
      else WriteResult.exception ModbusException.illegalDataAddress) ∧
    ((ServerExample.on_write_single_register i r db).1 =
      if (db.update_holding_register i r).isSome then WriteResult.success
      else WriteResult.exception ModbusException.illegalDataAddress) ∧
    ((ServerC.on_write_single_coil v i db).1 =
      if (db.update_coil i v).isSome then WriteResult.success
      else WriteResult.exception ModbusException.illegalDataAddress) ∧
    ((ServerC.on_write_single_register r i db).1 =
      if (db.update_holding_register i r).isSome then WriteResult.success
      else WriteResult.exception ModbusException.illegalDataAddress) := by
  refine ⟨?_, ?_, ?_, ?_⟩
  · unfold ServerExample.on_write_single_coil
    cases db.update_coil i v <;> rfl
  · unfold ServerExample.on_write_single_register
    cases db.update_holding_register i r <;> rfl
  · unfold ServerC.on_write_single_coil
    cases db.update_coil i v <;> rfl
  · unfold ServerC.on_write_single_register
    cases db.update_holding_register i r <;> rfl

/-- C3: on the example database (coils 0..9 provisioned as false),
write-single-coil(3, true) followed by read-coils(0, 10) yields index 3
true and all other indices false. -/
theorem c3_write_single_then_read_coils :
    (ServerExample.on_write_single_coil 3 true ServerExample.example_db).1 =
      WriteResult.success ∧
    readRange
        (ServerExample.on_write_single_coil 3 true
          ServerExample.example_db).2.coils 0 10 =
      some [(0, false), (1, false), (2, false), (3, true), (4, false),
        (5, false), (6, false), (7, false), (8, false), (9, false)] := by
  decide

/-- C4: on the example database (holding registers 0..9 provisioned),
write-multiple-registers(start 0, values CA FE) followed by
read-holding-registers(0, 2) yields the values CA and FE. -/
theorem c4_write_multiple_then_read_registers :
    (ServerExample.on_write_multiple_registers 0 (indexedFrom 0 [0xCA, 0xFE])
        ServerExample.example_db).1 = WriteResult.success ∧
    readRange
        (ServerExample.on_write_multiple_registers 0
          (indexedFrom 0 [0xCA, 0xFE])
          ServerExample.example_db).2.holding_registers 0 2 =
      some [(0, 0xCA), (1, 0xFE)] := by
  decide

/-- C8: the early-return multi-coil write handler of src/server.c and
the continue-on-failure handler of server_example.c return equal
WriteResult values for every database and bit sequence: success when
every index update succeeds, IllegalDataAddress when some update
fails. -/
theorem c8_multi_coil_variants_agree (start : Nat) (bits : List (Nat × Bool))
    (db : Database) :
    (ServerC.on_write_multiple_coils start bits db).1 =
      (ServerExample.on_write_multiple_coils start bits db).1 ∧
    (ServerC.on_write_multiple_coils start bits db).1 =
      (if bits.all (fun p => (db.update_coil p.1 p.2).isSome) then
        WriteResult.success
      else WriteResult.exception ModbusException.illegalDataAddress) := by
  have h1 := serverC_multiple_coils_fst start bits db
  constructor
  · unfold ServerExample.on_write_multiple_coils
    rw [h1, write_multiple_coils_loop_fst]
    rfl
  · rw [h1, coilsOk_eq_all_update]

end Rodbus

namespace Rodbus

theorem readRange_eq_none {α : Type} (m : RegMap α) :
    ∀ (count start k : Nat), k < count → lookupReg m (start + k) = none →
      readRange m start count = none := by
  intro count
  induction count with
  | zero => intro start k hk; omega
  | succ n ih =>
    intro start k hk hnone
    cases hl : lookupReg m start with
    | none => simp [readRange, hl]
    | some v =>
      cases k with
      | zero => rw [Nat.add_zero] at hnone; rw [hnone] at hl; cases hl
      | succ j =>
        have hj : j < n := by omega
        have hnone' : lookupReg m (start + 1 + j) = none := by
          have : start + 1 + j = start + (j + 1) := by omega
          rw [this]; exact hnone
        simp [readRange, hl, ih (start + 1) j hj hnone']

/-- C5: with the example authorization handler of server_example.c
(denying all writes), every write request — single or multiple, coil or
register — gets the authorization-failure exception response and the
database comes back completely unchanged, whatever write handler is
registered. -/
theorem c5_denied_write_leaves_db (wh : WriteHandler) (unitId : Nat)
    (role : String) (db : Database) (req : Request)
    (h : req.isWrite = true) :
    dispatch ServerExample.get_auth_handler wh unitId role db req =
      (Response.exception ModbusException.authorizationFailure, db) := by
  cases req <;> simp [Request.isWrite] at h <;>
    simp [dispatch, ServerExample.get_auth_handler,
      ServerExample.auth_single_write, ServerExample.auth_multiple_writes]

/-- Witness for C5: a concrete single-coil write on the example database
is denied and the database value is unchanged. -/
theorem c5_denied_write_leaves_db_witness :
    (Request.writeSingleCoil 3 true).isWrite = true ∧
    dispatch ServerExample.get_auth_handler ServerExample.write_handler 1
        "role" ServerExample.example_db (Request.writeSingleCoil 3 true) =
      (Response.exception ModbusException.authorizationFailure,
        ServerExample.example_db) :=
  ⟨by decide,
    c5_denied_write_leaves_db ServerExample.write_handler 1 "role"
      ServerExample.example_db (Request.writeSingleCoil 3 true) (by decide)⟩

/-- C6: a read request whose address range contains at least one index
never added to the database is answered with the IllegalDataAddress
exception, and the database comes back unchanged (no absent entry is
implicitly created); stated for each of the four read function codes
under the example authorization handler, which allows all reads. -/
theorem c6_read_gap_illegal_data_address (wh : WriteHandler) (unitId : Nat)
    (role : String) (db : Database) (start count : Nat) :
    ((∃ k < count, lookupReg db.coils (start + k) = none) →
      dispatch ServerExample.get_auth_handler wh unitId role db
          (Request.readCoils ⟨start, count⟩) =
        (Response.exception ModbusException.illegalDataAddress, db)) ∧
    ((∃ k < count, lookupReg db.discrete_inputs (start + k) = none) →
      dispatch ServerExample.get_auth_handler wh unitId role db
          (Request.readDiscreteInputs ⟨start, count⟩) =
        (Response.exception ModbusException.illegalDataAddress, db)) ∧
    ((∃ k < count, lookupReg db.holding_registers (start + k) = none) →
      dispatch ServerExample.get_auth_handler wh unitId role db
          (Request.readHoldingRegisters ⟨start, count⟩) =
        (Response.exception ModbusException.illegalDataAddress, db)) ∧
    ((∃ k < count, lookupReg db.input_registers (start + k) = none) →
      dispatch ServerExample.get_auth_handler wh unitId role db
          (Request.readInputRegisters ⟨start, count⟩) =
        (Response.exception ModbusException.illegalDataAddress, db)) := by
  refine ⟨?_, ?_, ?_, ?_⟩ <;> rintro ⟨k, hk, hnone⟩
  · have hr := readRange_eq_none db.coils count start k hk hnone
    simp [dispatch, ServerExample.get_auth_handler, ServerExample.auth_read, hr]
  · have hr := readRange_eq_none db.discrete_inputs count start k hk hnone
    simp [dispatch, ServerExample.get_auth_handler, ServerExample.auth_read, hr]
  · have hr := readRange_eq_none db.holding_registers count start k hk hnone
    simp [dispatch, ServerExample.get_auth_handler, ServerExample.auth_read, hr]
  · have hr := readRange_eq_none db.input_registers count start k hk hnone
    simp [dispatch, ServerExample.get_auth_handler, ServerExample.auth_read, hr]

/-- Witness for C6: reading range 8..11 of the example database (only
0..9 provisioned) yields IllegalDataAddress for all four read kinds and
leaves the database unchanged. -/
theorem c6_read_gap_illegal_data_address_witness :
    (dispatch ServerExample.get_auth_handler ServerExample.write_handler 1
        "role" ServerExample.example_db (Request.readCoils ⟨8, 4⟩) =
      (Response.exception ModbusException.illegalDataAddress,
        ServerExample.example_db)) ∧
    (dispatch ServerExample.get_auth_handler ServerExample.write_handler 1
        "role" ServerExample.example_db (Request.readDiscreteInputs ⟨8, 4⟩) =
      (Response.exception ModbusException.illegalDataAddress,
        ServerExample.example_db)) ∧
    (dispatch ServerExample.get_auth_handler ServerExample.write_handler 1
        "role" ServerExample.example_db (Request.readHoldingRegisters ⟨8, 4⟩) =
      (Response.exception ModbusException.illegalDataAddress,
        ServerExample.example_db)) ∧
    (dispatch ServerExample.get_auth_handler ServerExample.write_handler 1
        "role" ServerExample.example_db (Request.readInputRegisters ⟨8, 4⟩) =
      (Response.exception ModbusException.illegalDataAddress,
        ServerExample.example_db)) :=
  ⟨(c6_read_gap_illegal_data_address ServerExample.write_handler 1 "role"
      ServerExample.example_db 8 4).1 ⟨2, by decide, by decide⟩,
    (c6_read_gap_illegal_data_address ServerExample.write_handler 1 "role"
      ServerExample.example_db 8 4).2.1 ⟨2, by decide, by decide⟩,
    (c6_read_gap_illegal_data_address ServerExample.write_handler 1 "role"
      ServerExample.example_db 8 4).2.2.1 ⟨2, by decide, by decide⟩,
    (c6_read_gap_illegal_data_address ServerExample.write_handler 1 "role"
      ServerExample.example_db 8 4).2.2.2 ⟨2, by decide, by decide⟩⟩

end Rodbus

namespace Rodbus

theorem serverC_coils_frame (start : Nat) (i : Nat) (v : Bool) (j : Nat) :
    ∀ (pre rest : List (Nat × Bool)) (db : Database),
      (∀ p ∈ pre, (lookupReg db.coils p.1).isSome = true) →
      lookupReg db.coils i = none →
      j ∉ pre.map Prod.fst → j ≠ i →
      lookupReg (ServerC.on_write_multiple_coils start
        (pre ++ (i, v) :: rest) db).2.coils j = lookupReg db.coils j := by
  intro pre
  induction pre with
  | nil =>
    intro rest db _ hfail _ _
    have hu : db.update_coil i v = none := update_coil_eq_none v hfail
    simp [ServerC.on_write_multiple_coils, hu]
  | cons p pre ih =>
    intro rest db hpre hfail hj hji
    obtain ⟨a, b⟩ := p
    have ha : (lookupReg db.coils a).isSome = true := hpre (a, b) (by simp)
    have hu : (db.update_coil a b).isSome = true := by
      rw [update_coil_isSome]; exact ha
    cases huu : db.update_coil a b with
    | none => rw [huu] at hu; cases hu
    | some db' =>
      have hj2 : ¬j = a ∧ j ∉ List.map Prod.fst pre := by
        simpa using hj
      have hdom := coil_dom_update_coil huu
      have hia : ¬i = a := by
        intro hia
        rw [← hia] at ha
        rw [hfail] at ha
        cases ha
      have hfail' : lookupReg db'.coils i = none := by
        rw [coil_frame_update_coil huu hia]; exact hfail
      have hpre' : ∀ q ∈ pre, (lookupReg db'.coils q.1).isSome = true := by
        intro q hq; rw [hdom q.1]; exact hpre q (by simp [hq])
      have hstep :
          (ServerC.on_write_multiple_coils start
              (((a, b) :: pre) ++ (i, v) :: rest) db) =
            ServerC.on_write_multiple_coils start (pre ++ (i, v) :: rest) db' := by
        simp [ServerC.on_write_multiple_coils, huu]
      rw [hstep, ih rest db' hpre' hfail' hj2.2 hji,
        coil_frame_update_coil huu hj2.1]

theorem serverC_registers_frame (start : Nat) (i v : Nat) (j : Nat) :
    ∀ (pre rest : List (Nat × Nat)) (db : Database),
      (∀ p ∈ pre, (lookupReg db.holding_registers p.1).isSome = true) →
      lookupReg db.holding_registers i = none →
      j ∉ pre.map Prod.fst → j ≠ i →
      lookupReg (ServerC.on_write_multiple_registers start
          (pre ++ (i, v) :: rest) db).2.holding_registers j =
        lookupReg db.holding_registers j := by
  intro pre
  induction pre with
  | nil =>
    intro rest db _ hfail _ _
    have hu : db.update_holding_register i v = none :=
      update_holding_register_eq_none v hfail
    simp [ServerC.on_write_multiple_registers, hu]
  | cons p pre ih =>
    intro rest db hpre hfail hj hji
    obtain ⟨a, b⟩ := p
    have ha : (lookupReg db.holding_registers a).isSome = true :=
      hpre (a, b) (by simp)
    have hu : (db.update_holding_register a b).isSome = true := by
      rw [update_holding_register_isSome]; exact ha
    cases huu : db.update_holding_register a b with
    | none => rw [huu] at hu; cases hu
    | some db' =>
      have hj2 : ¬j = a ∧ j ∉ List.map Prod.fst pre := by
        simpa using hj
      have hdom := hr_dom_update_holding_register huu
      have hia : ¬i = a := by
        intro hia
        rw [← hia] at ha
        rw [hfail] at ha
        cases ha
      have hfail' : lookupReg db'.holding_registers i = none := by
        rw [hr_frame_update_holding_register huu hia]; exact hfail
      have hpre' : ∀ q ∈ pre,
          (lookupReg db'.holding_registers q.1).isSome = true := by
        intro q hq; rw [hdom q.1]; exact hpre q (by simp [hq])
      have hstep :
          (ServerC.on_write_multiple_registers start
              (((a, b) :: pre) ++ (i, v) :: rest) db) =
            ServerC.on_write_multiple_registers start
              (pre ++ (i, v) :: rest) db' := by
        simp [ServerC.on_write_multiple_registers, huu]
      rw [hstep, ih rest db' hpre' hfail' hj2.2 hji,
        hr_frame_update_holding_register huu hj2.1]

/-- C9: in the early-return multi-write handlers of src/server.c, once
the first failing element (an unprovisioned index) is reached, no later
element is applied: every entry addressed only by elements after the
first failing one keeps its previous value — stated for the coil
handler and the register handler. -/
theorem c9_early_return_no_later_updates (start : Nat)
    (pre rest : List (Nat × Bool)) (i : Nat) (v : Bool) (db : Database)
    (j : Nat)
    (preR restR : List (Nat × Nat)) (iR vR : Nat) (dbR : Database)
    (jR : Nat)
    (hpre : ∀ p ∈ pre, (lookupReg db.coils p.1).isSome = true)
    (hfail : lookupReg db.coils i = none)
    (hj1 : j ∈ rest.map Prod.fst) (hj2 : j ∉ pre.map Prod.fst) (hj3 : j ≠ i)
    (hpreR : ∀ p ∈ preR, (lookupReg dbR.holding_registers p.1).isSome = true)
    (hfailR : lookupReg dbR.holding_registers iR = none)
    (hjR1 : jR ∈ restR.map Prod.fst) (hjR2 : jR ∉ preR.map Prod.fst)
    (hjR3 : jR ≠ iR) :
    lookupReg (ServerC.on_write_multiple_coils start
        (pre ++ (i, v) :: rest) db).2.coils j = lookupReg db.coils j ∧
    lookupReg (ServerC.on_write_multiple_registers start
        (preR ++ (iR, vR) :: restR) dbR).2.holding_registers jR =
      lookupReg dbR.holding_registers jR :=
  ⟨serverC_coils_frame start i v j pre rest db hpre hfail hj2 hj3,
    serverC_registers_frame start iR vR jR preR restR dbR hpreR hfailR
      hjR2 hjR3⟩

/-- Witness for C9: on the example database, writing coils
(0,true),(100,true),(1,true) stops at index 100, so coil 1 keeps its
previous value false; likewise registers (0,7),(100,7),(1,7) leave
holding register 1 at 0. -/
theorem c9_early_return_no_later_updates_witness :
    lookupReg (ServerC.on_write_multiple_coils 0
        ([(0, true)] ++ (100, true) :: [(1, true)])
        ServerExample.example_db).2.coils 1 =
      lookupReg ServerExample.example_db.coils 1 ∧
    lookupReg (ServerC.on_write_multiple_registers 0
        ([(0, 7)] ++ (100, 7) :: [(1, 7)])
        ServerExample.example_db).2.holding_registers 1 =
      lookupReg ServerExample.example_db.holding_registers 1 :=
  c9_early_return_no_later_updates 0 [(0, true)] [(1, true)] 100 true
    ServerExample.example_db 1 [(0, 7)] [(1, 7)] 100 7
    ServerExample.example_db 1
    (by decide) (by decide) (by decide) (by decide) (by decide)
    (by decide) (by decide) (by decide) (by decide) (by decide)

end Rodbus

namespace Rodbus

theorem update_discrete_input_eq_some {db db' : Database} {i : Nat} {b : Bool}
    (h : db.update_discrete_input i b = some db') :
    ∃ m, updateReg db.discrete_inputs i b = some m ∧
      db' = { db with discrete_inputs := m } := by
  rw [Database.update_discrete_input] at h
  cases hu : updateReg db.discrete_inputs i b with
  | none => rw [hu] at h; simp at h
  | some m => rw [hu] at h; simp at h; exact ⟨m, rfl, h.symm⟩

theorem update_input_register_eq_some {db db' : Database} {i r : Nat}
    (h : db.update_input_register i r = some db') :
    ∃ m, updateReg db.input_registers i r = some m ∧
      db' = { db with input_registers := m } := by
  rw [Database.update_input_register] at h
  cases hu : updateReg db.input_registers i r with
  | none => rw [hu] at h; simp at h
  | some m => rw [hu] at h; simp at h; exact ⟨m, rfl, h.symm⟩

theorem update_discrete_input_isSome (db : Database) (i : Nat) (b : Bool) :
    (db.update_discrete_input i b).isSome =
      (lookupReg db.discrete_inputs i).isSome := by
  rw [Database.update_discrete_input,
    ← updateReg_isSome db.discrete_inputs i b]
  cases updateReg db.discrete_inputs i b <;> rfl

theorem update_input_register_isSome (db : Database) (i r : Nat) :
    (db.update_input_register i r).isSome =
      (lookupReg db.input_registers i).isSome := by
  rw [Database.update_input_register,
    ← updateReg_isSome db.input_registers i r]
  cases updateReg db.input_registers i r <;> rfl

theorem di_of_getD_update_discrete_input (db : Database) (i : Nat) (b : Bool) :
    lookupReg ((db.update_discrete_input i b).getD db).discrete_inputs i =
      if (lookupReg db.discrete_inputs i).isSome then some b
      else lookupReg db.discrete_inputs i := by
  cases h : db.update_discrete_input i b with
  | none =>
    have hs := update_discrete_input_isSome db i b
    rw [h] at hs
    simp [← hs]
  | some d1 =>
    have hs := update_discrete_input_isSome db i b
    rw [h] at hs
    obtain ⟨m, hm, rfl⟩ := update_discrete_input_eq_some h
    simp [← hs, lookupReg_updateReg_self hm]

theorem di_getD_frame (db : Database) (i j : Nat) (b : Bool) (hji : j ≠ i) :
    lookupReg ((db.update_discrete_input i b).getD db).discrete_inputs j =
      lookupReg db.discrete_inputs j := by
  cases h : db.update_discrete_input i b with
  | none => rfl
  | some d1 =>
    obtain ⟨m, hm, rfl⟩ := update_discrete_input_eq_some h
    simpa using lookupReg_updateReg_ne hm hji

theorem ir_of_getD_update_input_register (db : Database) (i r : Nat) :
    lookupReg ((db.update_input_register i r).getD db).input_registers i =
      if (lookupReg db.input_registers i).isSome then some r
      else lookupReg db.input_registers i := by
  cases h : db.update_input_register i r with
  | none =>
    have hs := update_input_register_isSome db i r
    rw [h] at hs
    simp [← hs]
  | some d1 =>
    have hs := update_input_register_isSome db i r
    rw [h] at hs
    obtain ⟨m, hm, rfl⟩ := update_input_register_eq_some h
    simp [← hs, lookupReg_updateReg_self hm]

theorem ir_getD_frame (db : Database) (i j r : Nat) (hji : j ≠ i) :
    lookupReg ((db.update_input_register i r).getD db).input_registers j =
      lookupReg db.input_registers j := by
  cases h : db.update_input_register i r with
  | none => rfl
  | some d1 =>
    obtain ⟨m, hm, rfl⟩ := update_input_register_eq_some h
    simpa using lookupReg_updateReg_ne hm hji

theorem getD_update_discrete_input_input_registers (db : Database) (i : Nat)
    (b : Bool) :
    ((db.update_discrete_input i b).getD db).input_registers =
      db.input_registers := by
  cases h : db.update_discrete_input i b with
  | none => rfl
  | some d1 =>
    obtain ⟨m, hm, rfl⟩ := update_discrete_input_eq_some h
    rfl

theorem getD_update_input_register_discrete_inputs (db : Database) (i r : Nat) :
    ((db.update_input_register i r).getD db).discrete_inputs =
      db.discrete_inputs := by
  cases h : db.update_input_register i r with
  | none => rfl
  | some d2 =>
    obtain ⟨m, hm, rfl⟩ := update_input_register_eq_some h
    rfl

theorem update_db_step_discrete_inputs (b : Bool) (r i : Nat) (db : Database) :
    (ServerC.update_db_step b r i db).discrete_inputs =
      ((db.update_discrete_input i b).getD db).discrete_inputs := by
  unfold ServerC.update_db_step
  exact getD_update_input_register_discrete_inputs _ i r

theorem update_db_step_input_registers (b : Bool) (r i : Nat) (db : Database) :
    lookupReg (ServerC.update_db_step b r i db).input_registers i =
      if (lookupReg db.input_registers i).isSome then some r
      else lookupReg db.input_registers i := by
  unfold ServerC.update_db_step
  rw [ir_of_getD_update_input_register,
    getD_update_discrete_input_input_registers]

theorem update_db_step_ir_frame (b : Bool) (r i j : Nat) (db : Database)
    (hji : j ≠ i) :
    lookupReg (ServerC.update_db_step b r i db).input_registers j =
      lookupReg db.input_registers j := by
  unfold ServerC.update_db_step
  rw [ir_getD_frame _ i j r hji, getD_update_discrete_input_input_registers]

theorem update_db_step_di_frame (b : Bool) (r i j : Nat) (db : Database)
    (hji : j ≠ i) :
    lookupReg (ServerC.update_db_step b r i db).discrete_inputs j =
      lookupReg db.discrete_inputs j := by
  rw [update_db_step_discrete_inputs]
  exact di_getD_frame db i j b hji

theorem update_db_step_di_self (b : Bool) (r i : Nat) (db : Database)
    (h : (lookupReg db.discrete_inputs i).isSome = true) :
    lookupReg (ServerC.update_db_step b r i db).discrete_inputs i = some b := by
  rw [update_db_step_discrete_inputs, di_of_getD_update_discrete_input, h]
  rfl

theorem update_db_step_ir_self (b : Bool) (r i : Nat) (db : Database)
    (h : (lookupReg db.input_registers i).isSome = true) :
    lookupReg (ServerC.update_db_step b r i db).input_registers i = some r := by
  rw [update_db_step_input_registers, h]
  rfl

theorem update_db_step_di_dom (b : Bool) (r i j : Nat) (db : Database) :
    (lookupReg (ServerC.update_db_step b r i db).discrete_inputs j).isSome =
      (lookupReg db.discrete_inputs j).isSome := by
  by_cases hji : j = i
  · subst hji
    rw [update_db_step_discrete_inputs, di_of_getD_update_discrete_input]
    cases hs : (lookupReg db.discrete_inputs j).isSome <;> simp [hs]
  · rw [update_db_step_di_frame b r i j db hji]

theorem update_db_step_ir_dom (b : Bool) (r i j : Nat) (db : Database) :
    (lookupReg (ServerC.update_db_step b r i db).input_registers j).isSome =
      (lookupReg db.input_registers j).isSome := by
  by_cases hji : j = i
  · subst hji
    rw [update_db_step_input_registers]
    cases hs : (lookupReg db.input_registers j).isSome <;> simp [hs]
  · rw [update_db_step_ir_frame b r i j db hji]

end Rodbus

namespace Rodbus

theorem update_db_loop_di_dom (b : Bool) (r : Nat) :
    ∀ (n : Nat) (db : Database) (j : Nat),
      (lookupReg (ServerC.update_db_loop b r n db).discrete_inputs j).isSome =
        (lookupReg db.discrete_inputs j).isSome := by
  intro n
  induction n with
  | zero => intro db j; rfl
  | succ n ih =>
    intro db j
    show (lookupReg (ServerC.update_db_step b r n
        (ServerC.update_db_loop b r n db)).discrete_inputs j).isSome = _
    rw [update_db_step_di_dom, ih]

theorem update_db_loop_ir_dom (b : Bool) (r : Nat) :
    ∀ (n : Nat) (db : Database) (j : Nat),
      (lookupReg (ServerC.update_db_loop b r n db).input_registers j).isSome =
        (lookupReg db.input_registers j).isSome := by
  intro n
  induction n with
  | zero => intro db j; rfl
  | succ n ih =>
    intro db j
    show (lookupReg (ServerC.update_db_step b r n
        (ServerC.update_db_loop b r n db)).input_registers j).isSome = _
    rw [update_db_step_ir_dom, ih]

theorem update_db_loop_di_set (b : Bool) (r : Nat) :
    ∀ (n : Nat) (db : Database) (j : Nat), j < n →
      (lookupReg db.discrete_inputs j).isSome = true →
      lookupReg (ServerC.update_db_loop b r n db).discrete_inputs j =
        some b := by
  intro n
  induction n with
  | zero => intro db j hj; omega
  | succ n ih =>
    intro db j hj hdom
    show lookupReg (ServerC.update_db_step b r n
        (ServerC.update_db_loop b r n db)).discrete_inputs j = some b
    by_cases hjn : j = n
    · subst hjn
      apply update_db_step_di_self
      rw [update_db_loop_di_dom]
      exact hdom
    · rw [update_db_step_di_frame b r n j _ hjn]
      exact ih db j (by omega) hdom

theorem update_db_loop_ir_set (b : Bool) (r : Nat) :
    ∀ (n : Nat) (db : Database) (j : Nat), j < n →
      (lookupReg db.input_registers j).isSome = true →
      lookupReg (ServerC.update_db_loop b r n db).input_registers j =
        some r := by
  intro n
  induction n with
  | zero => intro db j hj; omega
  | succ n ih =>
    intro db j hj hdom
    show lookupReg (ServerC.update_db_step b r n
        (ServerC.update_db_loop b r n db)).input_registers j = some r
    by_cases hjn : j = n
    · subst hjn
      apply update_db_step_ir_self
      rw [update_db_loop_ir_dom]
      exact hdom
    · rw [update_db_step_ir_frame b r n j _ hjn]
      exact ih db j (by omega) hdom

/-- C10: on a database with discrete inputs and input registers 0..9
provisioned (as the examples' configure_db guarantees), every call of
update_db from src/server.c toggles the state's bit, increments its
16-bit register value modulo 2^16, and leaves all ten discrete inputs
equal to the toggled bit and all ten input registers equal to the
incremented value — so the all-ten-equal property is re-established,
hence preserved, by every call. -/
theorem c10_update_db_uniform (st : ServerC.state_t) (db : Database)
    (hdi : ((List.range 10).all
      (fun i => (lookupReg db.discrete_inputs i).isSome)) = true)
    (hir : ((List.range 10).all
      (fun i => (lookupReg db.input_registers i).isSome)) = true) :
    (ServerC.update_db st db).1 =
      ⟨(st.register_value + 1) % 65536, !st.bit_value⟩ ∧
    ∀ i, i < 10 →
      lookupReg (ServerC.update_db st db).2.discrete_inputs i =
        some (!st.bit_value) ∧
      lookupReg (ServerC.update_db st db).2.input_registers i =
        some ((st.register_value + 1) % 65536) := by
  have hdi' : ∀ i, i < 10 → (lookupReg db.discrete_inputs i).isSome = true := by
    simpa [List.all_eq_true, List.mem_range] using hdi
  have hir' : ∀ i, i < 10 → (lookupReg db.input_registers i).isSome = true := by
    simpa [List.all_eq_true, List.mem_range] using hir
  constructor
  · rfl
  · intro i hi
    simp only [ServerC.update_db]
    constructor
    · exact update_db_loop_di_set (!st.bit_value)
        ((st.register_value + 1) % 65536) 10 db i hi (hdi' i hi)
    · exact update_db_loop_ir_set (!st.bit_value)
        ((st.register_value + 1) % 65536) 10 db i hi (hir' i hi)

/-- Witness for C10: one call of update_db on the freshly configured
database of src/server.c, from the initial state, sets discrete input 3
to true and input register 3 to 1, and the new state is (1, true). -/
theorem c10_update_db_uniform_witness :
    (ServerC.update_db ⟨0, false⟩
        (ServerC.configure_db Database.empty)).1 = ⟨1, true⟩ ∧
    lookupReg (ServerC.update_db ⟨0, false⟩
        (ServerC.configure_db Database.empty)).2.discrete_inputs 3 =
      some true ∧
    lookupReg (ServerC.update_db ⟨0, false⟩
        (ServerC.configure_db Database.empty)).2.input_registers 3 =
      some 1 :=
  ⟨(c10_update_db_uniform ⟨0, false⟩ (ServerC.configure_db Database.empty)
      (by decide) (by decide)).1,
    (c10_update_db_uniform ⟨0, false⟩ (ServerC.configure_db Database.empty)
      (by decide) (by decide)).2 3 (by decide)⟩

end Rodbus
